import Mathlib

/-!
Verification of the e-commerce backend core: a shallow embedding of the
catalog-integrity rules (`src/products/models.py`) and the identity & access
views (`src/accounts/views.py`), with theorems settling the specified
properties against this embedding.

Monetary amounts (Django `DecimalField`) are modelled as rationals; the
database is modelled as explicit list-valued stores threaded through the
operations; a Python expression that can raise is modelled with `Option`
(`none` = exception).
-/

namespace ECommerce

/-! ## Catalog data model (`src/products/models.py`) -/

/-- `Product` (models.py:62): the fields relevant to pricing and stock.
`price` and `discount_price` are `DecimalField`s (modelled as `ℚ`), both
declared with `MinValueValidator(0)`; `discount_price` is nullable. -/
structure Product where
  name : String
  slug : String
  price : ℚ
  discount_price : Option ℚ
  stock : ℤ
  deriving Repr, DecidableEq

/-- `Product.has_discount` (models.py:142-145):
`self.discount_price is not None and self.discount_price < self.price`. -/
def Product.has_discount (p : Product) : Bool :=
  match p.discount_price with
  | none => false
  | some d => decide (d < p.price)

/-- Rounding to 2 decimal places as Python's `round(x, 2)` on `Decimal`
(round-half-to-even). Both the code-side computation and the spec-side
formula round with this same function. -/
def round2 (q : ℚ) : ℚ :=
  let s : ℚ := q * 100
  let f : ℤ := ⌊s⌋
  let n : ℤ :=
    if s - f < 1/2 then f
    else if 1/2 < s - f then f + 1
    else if f % 2 = 0 then f else f + 1
  (n : ℚ) / 100

/-- `Product.discount_percentage` (models.py:147-153):
`round((self.price - self.discount_price) / self.price * 100, 2)` when
`has_discount`, else `0`.  Python `Decimal` division by zero raises, which
the embedding records as `none`. -/
def Product.discount_percentage (p : Product) : Option ℚ :=
  if p.has_discount then
    match p.discount_price with
    | none => none
    | some d =>
      if p.price = 0 then none
      else some (round2 ((p.price - d) / p.price * 100))
  else some 0

/-- `Product.is_in_stock` (models.py:155-158): `self.stock > 0`. -/
def Product.is_in_stock (p : Product) : Bool :=
  decide (0 < p.stock)

/-- `ProductImage` (models.py:161): product reference and primary flag,
with the row's primary key. -/
structure ProductImage where
  id : Nat
  product : Nat
  is_primary : Bool
  deriving Repr, DecidableEq

/-- The product-image table: a list of stored rows. -/
abbrev ImageStore := List ProductImage

/-- The queryset update in `ProductImage.save` (models.py:186):
`ProductImage.objects.filter(product=self.product, is_primary=True)
.update(is_primary=False)`. -/
def demotePrimaries (store : ImageStore) (pid : Nat) : ImageStore :=
  store.map (fun r =>
    if r.product == pid && r.is_primary then { r with is_primary := false } else r)

/-- `super().save()` on a model instance: update the row with the same
primary key when present, otherwise insert. -/
def upsertImage (store : ImageStore) (img : ProductImage) : ImageStore :=
  if store.any (fun r => r.id == img.id) then
    store.map (fun r => if r.id == img.id then img else r)
  else store ++ [img]

/-- `ProductImage.save` (models.py:183-187): when the saved image is
primary, first demote every primary image of the same product, then write
the instance. -/
def imageSave (store : ImageStore) (img : ProductImage) : ImageStore :=
  upsertImage (if img.is_primary then demotePrimaries store img.product else store) img

/-- Number of rows of `store` that are primary images of product `pid`. -/
def countPrimary (pid : Nat) (store : ImageStore) : Nat :=
  store.countP (fun r => r.product == pid && r.is_primary)

/-- The `unique_together = ('product', 'is_primary')` declaration
(models.py:178) as a store invariant: no two rows agree on both columns. -/
def UniqueTogether (store : ImageStore) : Prop :=
  store.Pairwise (fun a b => ¬ (a.product = b.product ∧ a.is_primary = b.is_primary))

/-- An insert as executed by a store enforcing `unique_together`
(models.py:174-178): rejected (`none`) when a stored row already has the
same `(product, is_primary)` pair. -/
def imageInsert (store : ImageStore) (img : ProductImage) : Option ImageStore :=
  if store.any (fun r => r.product == img.product && r.is_primary == img.is_primary) then none
  else some (store ++ [img])

/-! ## Category model (`src/products/models.py`) -/

/-- Django's `slugify`: lowercase, alphanumerics kept, runs of other
characters collapsed to single hyphens, trimmed. -/
def slugify (s : String) : String :=
  let keep := fun c : Char => c.isAlphanum
  let lowered := s.toList.map Char.toLower
  let hyphened := lowered.map (fun c => if keep c then c else '-')
  let collapsed := (hyphened.foldl (fun acc c =>
    if c = '-' && acc.headD ' ' = '-' then acc else c :: acc) []).reverse
  let trimmed := (collapsed.dropWhile (· = '-')).reverse.dropWhile (· = '-')
  String.mk trimmed.reverse

/-- `Category` (models.py:31): name, slug and the self-referential
nullable `parent` foreign key, with the row's primary key. -/
structure Category where
  id : Nat
  name : String
  slug : String
  parent : Option Nat
  deriving Repr, DecidableEq

/-- The category table. -/
abbrev CategoryStore := List Category

/-- `super().save()` for categories: update by primary key or insert. -/
def upsertCategory (store : CategoryStore) (c : Category) : CategoryStore :=
  if store.any (fun r => r.id == c.id) then
    store.map (fun r => if r.id == c.id then c else r)
  else store ++ [c]

/-- `Category.save` (models.py:56-59): derive the slug from the name when
absent, then write.  The method performs no other validation. -/
def categorySave (store : CategoryStore) (c : Category) : CategoryStore :=
  let c' := if c.slug = "" then { c with slug := slugify c.name } else c
  upsertCategory store c'

/-- The parent reference recorded for category `cid` in the store. -/
def parentOf (store : CategoryStore) (cid : Nat) : Option Nat :=
  match store.find? (fun c => c.id == cid) with
  | some c => c.parent
  | none => none

/-- `anc` is reached from `cid` by following at most `fuel` parent links. -/
def isAncestorWithin (store : CategoryStore) (fuel : Nat) (anc cid : Nat) : Bool :=
  match fuel with
  | 0 => false
  | fuel' + 1 =>
    match parentOf store cid with
    | none => false
    | some p => p == anc || isAncestorWithin store fuel' anc p

/-! ## Identity & access data model (`src/accounts/views.py`)

The credential hashing service is an external interface
(`hash(plaintext) -> digest`); the operations below take the hash function
as a parameter, and `check_password` compares `hash raw` with the stored
digest. -/

/-- A Django `User`: id, login identifier, stored credential digest,
active flag and `is_staff` administrator flag. -/
structure User where
  id : Nat
  username : String
  password : String
  is_active : Bool
  is_staff : Bool
  deriving Repr, DecidableEq

/-- A `UserProfile` row (accounts.models): profile id and its 1:1 owner. -/
structure UserProfile where
  id : Nat
  user : Nat
  deriving Repr, DecidableEq

/-- The persistent state the account views touch: the user table and the
`authtoken` table (one `(user_id, key)` row per token). -/
structure AuthState where
  users : List User
  tokens : List (Nat × String)
  deriving Repr, DecidableEq

/-- `user.check_password(raw)`: the supplied plaintext hashes to the
stored digest. -/
def check_password (hash : String → String) (raw : String) (u : User) : Bool :=
  hash raw == u.password

/-- `user.set_password(raw)`: store the digest of the new credential. -/
def set_password (hash : String → String) (raw : String) (u : User) : User :=
  { u with password := hash raw }

/-- The token of user `uid`, when one exists. -/
def getToken (tokens : List (Nat × String)) (uid : Nat) : Option String :=
  (tokens.find? (fun t => t.1 == uid)).map (·.2)

/-- `Token.objects.get_or_create(user=user)` (views.py:34,63): return the
existing token unchanged, or insert a row with the freshly generated key
`fresh`. -/
def getOrCreateToken (tokens : List (Nat × String)) (uid : Nat) (fresh : String) :
    String × List (Nat × String) :=
  match getToken tokens uid with
  | some k => (k, tokens)
  | none => (fresh, tokens ++ [(uid, fresh)])

/-- Modelled from the spec: `UserLoginSerializer` (not under `src/`)
resolves the login identifier to an active principal whose stored hash
matches the supplied credential, yielding that user; on failure the login
view returns a generic authentication error (`none`). -/
def authenticate (hash : String → String) (users : List User) (uname pw : String) :
    Option User :=
  users.find? (fun u => u.username == uname && u.is_active && check_password hash pw u)

/-- `UserLoginViewSet.create` (views.py:56-75): authenticate, then
get-or-create the token and return its key with the updated state;
`none` is the 401 authentication-failure response. -/
def login (hash : String → String) (st : AuthState) (uname pw fresh : String) :
    Option (String × AuthState) :=
  match authenticate hash st.users uname pw with
  | none => none
  | some u =>
    let r := getOrCreateToken st.tokens u.id fresh
    some (r.1, { st with tokens := r.2 })

/-- Modelled from the spec: the credential strength validation applied by
the registration and change-password serializers (not under `src/`):
minimum length, not purely numeric, not a known common credential, not
equal to the account's own login identifier. -/
def passwordStrengthOk (uname pw : String) : Bool :=
  decide (8 ≤ pw.length) && !(pw.toList.all Char.isDigit) &&
    !(["password", "12345678", "qwerty123"].contains pw) && !(pw == uname)

/-- Outcome of the change-password view. -/
inductive CPResult
  | ok
  | wrongOld
  | invalid
  deriving Repr, DecidableEq

/-- Replace the stored row of user `u` (matched by id). -/
def updateUser (users : List User) (u : User) : List User :=
  users.map (fun x => if x.id == u.id then u else x)

/-- `UserViewSet.change_password` (views.py:124-146): validate the payload
(serializer), check the current credential against the stored hash, and
only then store the new credential; a mismatch returns the 400
`Wrong password.` response and leaves the state untouched. -/
def changePasswordView (hash : String → String) (st : AuthState) (uid : Nat)
    (old npw : String) : CPResult × AuthState :=
  match st.users.find? (fun u => u.id == uid) with
  | none => (.invalid, st)
  | some u =>
    if passwordStrengthOk u.username npw then
      if check_password hash old u then
        (.ok, { st with users := updateUser st.users (set_password hash npw u) })
      else (.wrongOld, st)
    else (.invalid, st)

/-- Outcome of the logout view. -/
inductive LogoutResult
  | ok
  | error
  deriving Repr, DecidableEq

/-- `UserViewSet.logout` (views.py:148-163): delete the caller's token
row; accessing `request.user.auth_token` raises when no token exists, and
the handler turns that into the 400 error response. -/
def logoutView (st : AuthState) (uid : Nat) : LogoutResult × AuthState :=
  match getToken st.tokens uid with
  | some _ => (.ok, { st with tokens := st.tokens.filter (fun t => !(t.1 == uid)) })
  | none => (.error, st)

/-- `UserViewSet.get_queryset` (views.py:93-100): staff see every user,
others only the row with their own id. -/
def userGetQueryset (st : AuthState) (requester : User) : List User :=
  if requester.is_staff then st.users
  else st.users.filter (fun u => u.id == requester.id)

/-- `UserProfileViewSet.get_queryset` (views.py:204-211): staff see every
profile, others only their own. -/
def profileGetQueryset (profiles : List UserProfile) (requester : User) : List UserProfile :=
  if requester.is_staff then profiles
  else profiles.filter (fun p => p.user == requester.id)

/-- `UserViewSet.get_permissions` (views.py:102-114) for the `list`
action: `IsAdminUser`, i.e. the requester must be staff. -/
def userListPermitted (requester : User) : Bool :=
  requester.is_staff

/-- `UserProfileViewSet.get_permissions` (views.py:213-223) for the
`list` action: `IsAdminUser`. -/
def profileListPermitted (requester : User) : Bool :=
  requester.is_staff

/-- The `list` operation on users as dispatched by the framework:
permissions are checked before the handler runs, so a failed
`IsAdminUser` check returns the authorization error (`Except.error`)
without consulting the queryset. -/
def userList (st : AuthState) (requester : User) : Except Unit (List User) :=
  if userListPermitted requester then .ok (userGetQueryset st requester)
  else .error ()

/-- The `list` operation on profiles, dispatched the same way. -/
def profileList (profiles : List UserProfile) (requester : User) :
    Except Unit (List UserProfile) :=
  if profileListPermitted requester then .ok (profileGetQueryset profiles requester)
  else .error ()

/-! ## Helper lemmas -/

/-- After the demotion update, no row of the product is primary. -/
theorem demote_no_primary {store : ImageStore} {pid : Nat} :
    ∀ r ∈ demotePrimaries store pid, (r.product == pid && r.is_primary) = false := by
  intro r hr
  rcases List.mem_map.mp hr with ⟨x, _, rfl⟩
  cases h : (x.product == pid && x.is_primary) <;> simp [h]

/-- The demotion update does not touch primary keys. -/
theorem demote_map_id (store : ImageStore) (pid : Nat) :
    (demotePrimaries store pid).map ProductImage.id = store.map ProductImage.id := by
  rw [demotePrimaries, List.map_map]
  apply List.map_congr_left
  intro x _
  simp only [Function.comp_apply]
  split <;> rfl

/-- A demoted store has zero primary images for the product. -/
theorem demote_countPrimary_zero (store : ImageStore) (pid : Nat) :
    countPrimary pid (demotePrimaries store pid) = 0 := by
  rw [countPrimary, List.countP_eq_zero]
  intro r hr
  simp [demote_no_primary r hr]

/-- Under the unique-together invariant, each (product, is_primary) pair
occurs in at most one row. -/
theorem uniqueTogether_pair_le_one (store : ImageStore) (pid : Nat) (b : Bool)
    (h : UniqueTogether store) :
    store.countP (fun r => r.product == pid && r.is_primary == b) ≤ 1 := by
  induction store with
  | nil => simp
  | cons a t ih =>
    rcases List.pairwise_cons.mp h with ⟨ha, ht⟩
    rw [List.countP_cons]
    by_cases hpa : (a.product == pid && a.is_primary == b) = true
    · have hz : t.countP (fun r => r.product == pid && r.is_primary == b) = 0 := by
        rw [List.countP_eq_zero]
        intro r hr hpr
        apply ha r hr
        simp only [Bool.and_eq_true, beq_iff_eq] at hpa hpr
        exact ⟨hpa.1.trans hpr.1.symm, hpa.2.trans hpr.2.symm⟩
      simp [hpa, hz]
    · simpa [hpa] using ih ht

/-- A product's rows split into its primary and non-primary rows. -/
theorem countP_product_split (store : ImageStore) (pid : Nat) :
    store.countP (fun r => r.product == pid)
      = store.countP (fun r => r.product == pid && r.is_primary == true)
        + store.countP (fun r => r.product == pid && r.is_primary == false) := by
  induction store with
  | nil => rfl
  | cons a t ih =>
    simp only [List.countP_cons]
    cases hp : (a.product == pid) <;> cases hb : a.is_primary <;>
      simp [hp, hb, ih] <;> omega

/-- An upserted category is found under its own primary key. -/
theorem upsertCategory_find (store : CategoryStore) (c : Category) :
    (upsertCategory store c).find? (fun r => r.id == c.id) = some c := by
  rw [upsertCategory]
  by_cases h : (store.any (fun r => r.id == c.id)) = true
  · rw [if_pos h]
    induction store with
    | nil => simp at h
    | cons a t ih =>
      rw [List.map_cons]
      cases ha : (a.id == c.id) with
      | true =>
        rw [if_pos rfl]
        rw [List.find?_cons_of_pos]
        simp
      | false =>
        rw [if_neg (by simp)]
        rw [List.find?_cons_of_neg _ (by simp [ha])]
        apply ih
        simpa [ha] using h
  · rw [if_neg h]
    have hnone : store.find? (fun r => r.id == c.id) = none := by
      rw [List.find?_eq_none]
      intro a ha
      intro hc
      exact absurd (List.any_eq_true.mpr ⟨a, ha, hc⟩) h
    rw [List.find?_append, hnone]
    simp

/-- Reading back an existing token leaves the table unchanged. -/
theorem getOrCreate_of_some {tokens : List (Nat × String)} {uid : Nat} {k fresh : String}
    (h : getToken tokens uid = some k) : getOrCreateToken tokens uid fresh = (k, tokens) := by
  rw [getOrCreateToken, h]

/-- After a get-or-create, the user's stored token is the returned key. -/
theorem getToken_getOrCreate (tokens : List (Nat × String)) (uid : Nat) (fresh : String) :
    getToken (getOrCreateToken tokens uid fresh).2 uid
      = some (getOrCreateToken tokens uid fresh).1 := by
  rw [getOrCreateToken]
  cases hg : getToken tokens uid with
  | some k => simpa using hg
  | none =>
    simp only
    rw [getToken] at hg ⊢
    cases hf : tokens.find? (fun t => t.1 == uid) with
    | some t => rw [hf] at hg; simp at hg
    | none =>
      rw [List.find?_append, hf]
      simp

/-- Replacing a user's row makes it the one found under their id. -/
theorem find?_updateUser (users : List User) (w u : User)
    (hu : users.find? (fun x => x.id == w.id) = some u) :
    (updateUser users w).find? (fun x => x.id == w.id) = some w := by
  induction users with
  | nil => simp at hu
  | cons a t ih =>
    rw [updateUser, List.map_cons]
    cases h : (a.id == w.id) with
    | true =>
      rw [if_pos rfl]
      rw [List.find?_cons_of_pos]
      simp
    | false =>
      rw [if_neg (by simp)]
      rw [List.find?_cons_of_neg _ (by simp [h])]
      rw [List.find?_cons_of_neg _ (by simp [h])] at hu
      exact ih hu

/-! ## Claims -/

/-- C1: after any `ProductImage.save` of an image with `is_primary = true`
(against a store with distinct primary keys), at most one image of that
product is primary in the resulting store, and every remaining primary
image of the product is the saved one — all others were demoted as part of
the write. -/
theorem imageSave_primary_exclusive (store : ImageStore) (img : ProductImage)
    (hids : (store.map ProductImage.id).Nodup) (hprim : img.is_primary = true) :
    countPrimary img.product (imageSave store img) ≤ 1 ∧
      ∀ r ∈ imageSave store img, r.product = img.product → r.is_primary = true →
        r.id = img.id := by
  have hsave : imageSave store img = upsertImage (demotePrimaries store img.product) img := by
    rw [imageSave, hprim]
    simp
  set s := demotePrimaries store img.product with hs
  have hzero : countPrimary img.product s = 0 := demote_countPrimary_zero store img.product
  have hnone : ∀ r ∈ s, (r.product == img.product && r.is_primary) = false :=
    fun r hr => demote_no_primary r hr
  have hsid : s.map ProductImage.id = store.map ProductImage.id := demote_map_id store img.product
  rw [hsave, upsertImage]
  by_cases hex : (s.any (fun r => r.id == img.id)) = true
  · rw [if_pos hex]
    constructor
    · rw [countPrimary, List.countP_map]
      have hmono : s.countP ((fun r => r.product == img.product && r.is_primary) ∘
          (fun r => if r.id == img.id then img else r)) ≤
          s.countP (fun r => r.id == img.id) := by
        apply List.countP_mono_left
        intro a ha hpa
        by_cases hid : (a.id == img.id) = true
        · exact hid
        · exfalso
          simp only [Function.comp_apply, hid, if_neg, Bool.not_eq_true] at hpa
          rw [hnone a ha] at hpa
          exact Bool.false_ne_true hpa
      refine le_trans hmono ?_
      have hcp : s.countP (fun r => r.id == img.id) =
          (s.map ProductImage.id).countP (fun i => i == img.id) := by
        rw [List.countP_map]
        rfl
      rw [hcp, hsid]
      have := List.nodup_iff_count_le_one.mp hids img.id
      simpa [List.count] using this
    · intro r hr hrp hrprim
      rcases List.mem_map.mp hr with ⟨x, hx, rfl⟩
      by_cases hid : (x.id == img.id) = true
      · simp [hid]
      · rw [if_neg hid] at hrp hrprim ⊢
        have := hnone x hx
        rw [hrprim] at this
        simp [hrp] at this
  · rw [if_neg hex]
    constructor
    · rw [countPrimary, List.countP_append]
      rw [countPrimary] at hzero
      rw [hzero, Nat.zero_add]
      exact le_trans (List.countP_le_length _) (by simp)
    · intro r hr hrp hrprim
      rcases List.mem_append.mp hr with hmem | hmem
      · exfalso
        have := hnone r hmem
        rw [hrprim] at this
        simp [hrp] at this
      · rcases List.mem_singleton.mp hmem with rfl
        rfl

/-- C1 witness: saving a fourth primary image into a store that (unlawfully)
holds two primaries of product 7 leaves at most one primary for product 7. -/
theorem imageSave_primary_exclusive_witness :
    countPrimary 7 (imageSave [⟨1, 7, true⟩, ⟨2, 7, true⟩, ⟨3, 8, true⟩] ⟨4, 7, true⟩) ≤ 1 :=
  (imageSave_primary_exclusive [⟨1, 7, true⟩, ⟨2, 7, true⟩, ⟨3, 8, true⟩] ⟨4, 7, true⟩
    (by decide) rfl).1

/-- C2: `discount_percentage` is `0` when `discount_price` is absent or at
least `price`; when a non-negative discount price is strictly below the
price it equals `round(100 * (price - discount_price) / price, 2)`; and
`has_discount` holds exactly when a discount price is set and strictly
below the price. -/
theorem discount_percentage_spec (p : Product) :
    (p.discount_price = none → p.discount_percentage = some 0) ∧
    (∀ d : ℚ, p.discount_price = some d → p.price ≤ d → p.discount_percentage = some 0) ∧
    (∀ d : ℚ, p.discount_price = some d → 0 ≤ d → d < p.price →
      p.discount_percentage = some (round2 (100 * (p.price - d) / p.price))) ∧
    (p.has_discount = true ↔ ∃ d : ℚ, p.discount_price = some d ∧ d < p.price) := by
  refine ⟨?_, ?_, ?_, ?_⟩
  · intro h
    simp [Product.discount_percentage, Product.has_discount, h]
  · intro d hd hle
    simp [Product.discount_percentage, Product.has_discount, hd, not_lt.mpr hle]
  · intro d hd h0 hlt
    have hpos : 0 < p.price := lt_of_le_of_lt h0 hlt
    have hne : p.price ≠ 0 := ne_of_gt hpos
    simp only [Product.discount_percentage, Product.has_discount, hd, decide_eq_true hlt,
      if_pos, hne, if_neg, Option.some.injEq]
    rw [div_mul_eq_mul_div, mul_comm]
    simp
  · constructor
    · intro h
      cases hd : p.discount_price with
      | none => simp [Product.has_discount, hd] at h
      | some d =>
        refine ⟨d, rfl, ?_⟩
        simpa [Product.has_discount, hd] using h
    · rintro ⟨d, hd, hlt⟩
      simp [Product.has_discount, hd, hlt]

/-- C2 witness: price 100 with discount price 75 yields 25 percent. -/
theorem discount_percentage_spec_witness :
    (⟨"x", "x", 100, some 75, 5⟩ : Product).discount_percentage = some 25 := by
  have h := (discount_percentage_spec ⟨"x", "x", 100, some 75, 5⟩).2.2.1 75 rfl
    (by norm_num) (by norm_num)
  rw [h, Option.some.injEq]
  norm_num [round2]

/-- C3 counterexample: no product with a validator-conforming
(non-negative) discount price and a zero base price makes
`discount_percentage` divide by zero — the `has_discount` guard
(discount < price) already fails there, refuting the claimed unguarded
division. -/
theorem discount_zero_price_no_division :
    ¬ ∃ p : Product, (∀ d : ℚ, p.discount_price = some d → 0 ≤ d) ∧
      p.price = 0 ∧ p.discount_price.isSome ∧ p.discount_percentage = none := by
  rintro ⟨p, hnn, hp0, hsome, hnone⟩
  cases hd : p.discount_price with
  | none => rw [hd] at hsome; simp at hsome
  | some d =>
    have h0 : 0 ≤ d := hnn d hd
    have hfalse : p.has_discount = false := by
      simp only [Product.has_discount, hd, hp0, decide_eq_false_iff_not]
      exact not_lt.mpr h0
    rw [Product.discount_percentage, hfalse] at hnone
    simp at hnone

/-- C3 (amended): with base price 0 and any non-negative discount price
set, `has_discount` is false, so `discount_percentage` returns 0 without
performing a division; a division by zero would require a negative
discount price, which the field validator forbids. -/
theorem discount_percentage_zero_price (p : Product) (d : ℚ)
    (hp : p.price = 0) (hd : p.discount_price = some d) (h0 : 0 ≤ d) :
    p.discount_percentage = some 0 := by
  have hfalse : p.has_discount = false := by
    simp only [Product.has_discount, hd, hp, decide_eq_false_iff_not]
    exact not_lt.mpr h0
  rw [Product.discount_percentage, hfalse]
  simp

/-- C3 witness: price 0 with discount price 0 evaluates to 0. -/
theorem discount_percentage_zero_price_witness :
    (⟨"z", "z", 0, some 0, 0⟩ : Product).discount_percentage = some 0 :=
  discount_percentage_zero_price ⟨"z", "z", 0, some 0, 0⟩ 0 rfl rfl le_rfl

/-- C4 counterexample: a concrete non-administrator invoking the user-list
and the profile-list operations is rejected with the authorization error,
not served a narrowed listing. -/
theorem list_nonadmin_rejected :
    userList ⟨[⟨1, "a", "h", true, false⟩, ⟨2, "b", "h", true, true⟩], []⟩
        ⟨1, "a", "h", true, false⟩ = Except.error () ∧
    profileList [⟨1, 1⟩, ⟨2, 2⟩] ⟨1, "a", "h", true, false⟩ = Except.error () :=
  ⟨rfl, rfl⟩

/-- C4 (amended): a non-administrator's user-list or profile-list request
is denied by the IsAdminUser gate on the list action; the queryset
narrowing to the requester's own record applies to the permitted detail
actions, and an administrator's list returns all records. -/
theorem list_scoping (st : AuthState) (profiles : List UserProfile) (requester : User) :
    (requester.is_staff = false →
      userList st requester = Except.error () ∧
      profileList profiles requester = Except.error () ∧
      userGetQueryset st requester = st.users.filter (fun u => u.id == requester.id) ∧
      profileGetQueryset profiles requester = profiles.filter (fun p => p.user == requester.id)) ∧
    (requester.is_staff = true →
      userList st requester = Except.ok st.users ∧
      profileList profiles requester = Except.ok profiles) := by
  constructor <;> intro h <;>
    simp [userList, profileList, userListPermitted, profileListPermitted,
      userGetQueryset, profileGetQueryset, h]

/-- C4 witness: the amended statement applied to a concrete
non-administrator. -/
theorem list_scoping_witness :
    userList ⟨[⟨1, "a", "h", true, false⟩, ⟨2, "b", "h", true, true⟩], []⟩
        ⟨1, "a", "h", true, false⟩ = Except.error () :=
  ((list_scoping ⟨[⟨1, "a", "h", true, false⟩, ⟨2, "b", "h", true, true⟩], []⟩ [⟨1, 1⟩]
    ⟨1, "a", "h", true, false⟩).1 rfl).1

/-- C5 counterexample: saving a category whose parent is itself is
committed by `Category.save`, not rejected, and the resulting store
contains the cycle — the category is its own ancestor. -/
theorem categorySave_cycle_committed :
    categorySave [⟨1, "A", "a", none⟩] ⟨1, "A", "a", some 1⟩ = [⟨1, "A", "a", some 1⟩] ∧
    isAncestorWithin (categorySave [⟨1, "A", "a", none⟩] ⟨1, "A", "a", some 1⟩) 1 1 1 = true := by
  constructor
  · decide
  · decide

/-- C5 (amended): `Category.save` performs no cycle validation — it only
derives the slug when absent and writes, so every save is committed: the
written category is in the resulting store with its parent reference
intact, and a self-parented category ends up its own ancestor. -/
theorem categorySave_no_cycle_validation (store : CategoryStore) (c : Category)
    (hslug : c.slug ≠ "") :
    c ∈ categorySave store c ∧
    parentOf (categorySave store c) c.id = c.parent ∧
    (c.parent = some c.id → isAncestorWithin (categorySave store c) 1 c.id c.id = true) := by
  have hsave : categorySave store c = upsertCategory store c := by
    rw [categorySave, if_neg hslug]
  have hfind := upsertCategory_find store c
  have hparent : parentOf (categorySave store c) c.id = c.parent := by
    rw [hsave, parentOf, hfind]
  refine ⟨?_, hparent, ?_⟩
  · rw [hsave, upsertCategory]
    by_cases h : (store.any (fun r => r.id == c.id)) = true
    · rw [if_pos h]
      rcases List.any_eq_true.mp h with ⟨x, hx, hid⟩
      exact List.mem_map.mpr ⟨x, hx, by rw [if_pos hid]⟩
    · rw [if_neg h]
      exact List.mem_append.mpr (Or.inr (List.mem_singleton.mpr rfl))
  · intro hpc
    rw [isAncestorWithin, hparent, hpc]
    simp

/-- C5 witness: the amended statement applied to a concrete self-parented
category. -/
theorem categorySave_no_cycle_validation_witness :
    (⟨1, "A", "a", some 1⟩ : Category) ∈
        categorySave [⟨1, "A", "a", none⟩] ⟨1, "A", "a", some 1⟩ ∧
    isAncestorWithin (categorySave [⟨1, "A", "a", none⟩] ⟨1, "A", "a", some 1⟩) 1 1 1 = true := by
  have h := categorySave_no_cycle_validation [⟨1, "A", "a", none⟩] ⟨1, "A", "a", some 1⟩
    (by decide)
  exact ⟨h.1, h.2.2 rfl⟩

/-- C6: token issuance is an idempotent get-or-create — after a login
returned token key k1 and state st1, a second login with the same
credentials (and any fresh candidate key) returns the same k1 and leaves
the state unchanged. -/
theorem login_idempotent (hash : String → String) (st : AuthState)
    (uname pw f1 f2 k1 : String) (st1 : AuthState)
    (h : login hash st uname pw f1 = some (k1, st1)) :
    login hash st1 uname pw f2 = some (k1, st1) := by
  rw [login] at h
  cases hfind : authenticate hash st.users uname pw with
  | none => rw [hfind] at h; exact absurd h (by simp)
  | some u =>
    rw [hfind] at h
    simp only [Option.some.injEq, Prod.mk.injEq] at h
    obtain ⟨hk, hst⟩ := h
    subst hst
    subst hk
    simp only [login, hfind]
    rw [getOrCreate_of_some (getToken_getOrCreate st.tokens u.id f1)]

/-- C6 witness: a second login for the same concrete credentials returns
the first login's token "tokA" even though the fresh candidate was "tokB",
and the token table is unchanged. -/
theorem login_idempotent_witness :
    login id ⟨[⟨1, "a@x.com", "Str0ngPass!", true, false⟩], [(1, "tokA")]⟩
        "a@x.com" "Str0ngPass!" "tokB"
      = some ("tokA", ⟨[⟨1, "a@x.com", "Str0ngPass!", true, false⟩], [(1, "tokA")]⟩) := by
  have h1 : login id ⟨[⟨1, "a@x.com", "Str0ngPass!", true, false⟩], []⟩
      "a@x.com" "Str0ngPass!" "tokA"
      = some ("tokA", ⟨[⟨1, "a@x.com", "Str0ngPass!", true, false⟩], [(1, "tokA")]⟩) := by
    decide
  exact login_idempotent id ⟨[⟨1, "a@x.com", "Str0ngPass!", true, false⟩], []⟩
    "a@x.com" "Str0ngPass!" "tokA" "tokB" "tokA"
    ⟨[⟨1, "a@x.com", "Str0ngPass!", true, false⟩], [(1, "tokA")]⟩ h1

/-- C7 counterexample: change_password with the new credential equal to
the old one succeeds, and afterwards the old credential still verifies
against the stored hash — refuting the claim as universally stated. -/
theorem changePassword_same_credential :
    (changePasswordView id ⟨[⟨1, "a@x.com", "Str0ngPass!", true, false⟩], [(1, "tok")]⟩ 1
        "Str0ngPass!" "Str0ngPass!").1 = CPResult.ok ∧
    (changePasswordView id ⟨[⟨1, "a@x.com", "Str0ngPass!", true, false⟩], [(1, "tok")]⟩ 1
        "Str0ngPass!" "Str0ngPass!").2.users.find? (fun x => x.id == 1)
      = some ⟨1, "a@x.com", "Str0ngPass!", true, false⟩ ∧
    check_password id "Str0ngPass!" ⟨1, "a@x.com", "Str0ngPass!", true, false⟩ = true := by
  refine ⟨by decide, by decide, by decide⟩

/-- C7 (amended): with an injective hash, after change_password succeeds
with a new credential different from the old one, the old credential no
longer verifies against the stored hash and the new one does. -/
theorem changePassword_success (hash : String → String) (st : AuthState) (uid : Nat)
    (old npw : String) (u : User)
    (hinj : Function.Injective hash)
    (hfind : st.users.find? (fun x => x.id == uid) = some u)
    (hvalid : passwordStrengthOk u.username npw = true)
    (hcheck : check_password hash old u = true)
    (hne : npw ≠ old) :
    (changePasswordView hash st uid old npw).1 = CPResult.ok ∧
    ∃ u' : User,
      (changePasswordView hash st uid old npw).2.users.find? (fun x => x.id == uid) = some u' ∧
      check_password hash old u' = false ∧ check_password hash npw u' = true := by
  have hwid : (set_password hash npw u).id = u.id := rfl
  have huid' : u.id = uid := by
    have := List.find?_some hfind
    simpa using this
  have hcpv : changePasswordView hash st uid old npw
      = (CPResult.ok, { st with users := updateUser st.users (set_password hash npw u) }) := by
    simp only [changePasswordView, hfind, hvalid, hcheck, if_pos]
  rw [hcpv]
  refine ⟨rfl, set_password hash npw u, ?_, ?_, ?_⟩
  · show (updateUser st.users (set_password hash npw u)).find? (fun x => x.id == uid)
      = some (set_password hash npw u)
    have h1 : st.users.find? (fun x => x.id == (set_password hash npw u).id) = some u := by
      rw [hwid, huid']
      exact hfind
    have h2 := find?_updateUser st.users (set_password hash npw u) u h1
    rw [hwid, huid'] at h2
    exact h2
  · rw [check_password, set_password]
    simp only [beq_eq_false_iff_ne, ne_eq]
    intro hc
    exact hne ((hinj hc).symm)
  · rw [check_password, set_password]
    simp

/-- C7 witness: a concrete successful password change from "OldPass!xyz"
to "N3wPass!xyz": afterwards the old credential fails and the new one
verifies. -/
theorem changePassword_success_witness :
    (changePasswordView id ⟨[⟨1, "a@x.com", "OldPass!xyz", true, false⟩], [(1, "tok")]⟩ 1
        "OldPass!xyz" "N3wPass!xyz").1 = CPResult.ok ∧
    ∃ u' : User,
      (changePasswordView id ⟨[⟨1, "a@x.com", "OldPass!xyz", true, false⟩], [(1, "tok")]⟩ 1
        "OldPass!xyz" "N3wPass!xyz").2.users.find? (fun x => x.id == 1) = some u' ∧
      check_password id "OldPass!xyz" u' = false ∧ check_password id "N3wPass!xyz" u' = true :=
  changePassword_success id ⟨[⟨1, "a@x.com", "OldPass!xyz", true, false⟩], [(1, "tok")]⟩ 1
    "OldPass!xyz" "N3wPass!xyz" ⟨1, "a@x.com", "OldPass!xyz", true, false⟩
    (fun _ _ h => h) rfl (by decide) (by decide) (by decide)

/-- C8: change_password with a current credential that does not match the
stored hash returns the wrong-password error and leaves the state — the
stored hash and the token table — entirely unchanged. -/
theorem changePassword_mismatch (hash : String → String) (st : AuthState) (uid : Nat)
    (old npw : String) (u : User)
    (hfind : st.users.find? (fun x => x.id == uid) = some u)
    (hvalid : passwordStrengthOk u.username npw = true)
    (hcheck : check_password hash old u = false) :
    changePasswordView hash st uid old npw = (CPResult.wrongOld, st) := by
  simp only [changePasswordView, hfind, hvalid, if_pos]
  rw [if_neg (by simp [hcheck])]

/-- C8 witness: a concrete mismatching current credential is rejected with
the state unchanged, token row included. -/
theorem changePassword_mismatch_witness :
    changePasswordView id ⟨[⟨1, "a@x.com", "Str0ngPass!", true, false⟩], [(1, "tok")]⟩ 1
        "wrongguess" "N3wPass!xyz"
      = (CPResult.wrongOld, ⟨[⟨1, "a@x.com", "Str0ngPass!", true, false⟩], [(1, "tok")]⟩) :=
  changePassword_mismatch id ⟨[⟨1, "a@x.com", "Str0ngPass!", true, false⟩], [(1, "tok")]⟩ 1
    "wrongguess" "N3wPass!xyz" ⟨1, "a@x.com", "Str0ngPass!", true, false⟩
    rfl (by decide) (by decide)

/-- C9: logout deletes the caller's token when one exists (afterwards no
token resolves for the caller), and returns the error response when no
token exists, leaving the state unchanged. -/
theorem logout_spec (st : AuthState) (uid : Nat) :
    (∀ k : String, getToken st.tokens uid = some k →
      (logoutView st uid).1 = LogoutResult.ok ∧
      getToken (logoutView st uid).2.tokens uid = none) ∧
    (getToken st.tokens uid = none → logoutView st uid = (LogoutResult.error, st)) := by
  constructor
  · intro k hk
    have hlv : logoutView st uid
        = (LogoutResult.ok, { st with tokens := st.tokens.filter (fun t => !(t.1 == uid)) }) := by
      simp only [logoutView, hk]
    rw [hlv]
    refine ⟨rfl, ?_⟩
    show getToken (st.tokens.filter (fun t => !(t.1 == uid))) uid = none
    have hfind : (st.tokens.filter (fun t => !(t.1 == uid))).find? (fun t => t.1 == uid)
        = none := by
      rw [List.find?_eq_none]
      intro a ha
      have := (List.mem_filter.mp ha).2
      simp at this
      simp [this]
    rw [getToken, hfind]
    rfl
  · intro h
    simp only [logoutView, h]

/-- C9 witness: logging out a caller holding token "tokA" succeeds and
removes it; logging out a caller with no token returns the error. -/
theorem logout_spec_witness :
    (logoutView ⟨[], [(1, "tokA")]⟩ 1).1 = LogoutResult.ok ∧
    getToken (logoutView ⟨[], [(1, "tokA")]⟩ 1).2.tokens 1 = none ∧
    logoutView ⟨[], []⟩ 1 = (LogoutResult.error, ⟨[], []⟩) :=
  ⟨((logout_spec ⟨[], [(1, "tokA")]⟩ 1).1 ("tokA") rfl).1,
   ((logout_spec ⟨[], [(1, "tokA")]⟩ 1).1 ("tokA") rfl).2,
   (logout_spec ⟨[], []⟩ 1).2 rfl⟩

/-- C10: the declared unique-together constraint on (product, is_primary)
entails: at most one primary and at most one non-primary stored image per
product, hence at most two stored images per product, and inserting a
second non-primary image for a product is rejected by the store. -/
theorem unique_together_semantics (store : ImageStore) (img : ProductImage)
    (hut : UniqueTogether store) :
    (∀ pid : Nat, ∀ b : Bool,
      store.countP (fun r => r.product == pid && r.is_primary == b) ≤ 1) ∧
    (∀ pid : Nat, store.countP (fun r => r.product == pid) ≤ 2) ∧
    (img.is_primary = false →
      (∃ r ∈ store, r.product = img.product ∧ r.is_primary = false) →
      imageInsert store img = none) := by
  refine ⟨fun pid b => uniqueTogether_pair_le_one store pid b hut, fun pid => ?_, ?_⟩
  · rw [countP_product_split]
    have h1 := uniqueTogether_pair_le_one store pid true hut
    have h2 := uniqueTogether_pair_le_one store pid false hut
    omega
  · rintro hprim ⟨r, hr, hrp, hrb⟩
    rw [imageInsert, if_pos]
    rw [List.any_eq_true]
    exact ⟨r, hr, by simp [hrp, hrb, hprim]⟩

/-- C10 witness: inserting a second non-primary image of product 7 into a
store already holding one is rejected. -/
theorem unique_together_semantics_witness :
    imageInsert [⟨1, 7, false⟩] ⟨2, 7, false⟩ = none :=
  (unique_together_semantics [⟨1, 7, false⟩] ⟨2, 7, false⟩
    (by simp [UniqueTogether])).2.2 rfl ⟨⟨1, 7, false⟩, by simp, rfl, rfl⟩

end ECommerce
